import Mathlib

/-!
Shallow embedding of `mqtt_client/src/main.rs` (MQTT ↔ chat-completion bridge).

Strings are modelled as lists of bytes (`List Nat`, each entry < 256 where it
matters), matching Rust's byte-indexed `str`/`String`.  Fallible operations —
in particular the byte-slicing in `truncate_message`, which can panic on a
usize underflow or on a slice that is not a character boundary — return
`Option`, with `none` standing for a panic.
-/

/-- Source constant `MAX_CONVERSATION_HISTORY`. -/
def MAX_CONVERSATION_HISTORY : Nat := 10

/-- Source constant `MAX_MESSAGE_LENGTH`. -/
def MAX_MESSAGE_LENGTH : Nat := 500

/-- Rust `str::is_char_boundary` on a byte-indexed UTF-8 string: index 0 and
the total length are boundaries, and an interior index is a boundary exactly
when the byte there is not a UTF-8 continuation byte (`0x80..0xBF`). -/
def is_char_boundary (s : List Nat) (i : Nat) : Bool :=
  if i = 0 then true
  else
    match s.get? i with
    | none => decide (i = s.length)
    | some b => decide (b < 0x80 ∨ 0xC0 ≤ b)

/-- `truncate_message` from the source:

    fn truncate_message(msg: &str, max_len: usize) -> String {
        if msg.len() <= max_len { msg.to_string() }
        else { format!("{}...", &msg[..max_len - 3]) }
    }

`none` models a panic: when `max_len < 3` the usize subtraction `max_len - 3`
underflows (panic in debug; in release it wraps and the slice is out of
range, also a panic), and when `max_len - 3` is not a character boundary the
byte slice `&msg[..max_len - 3]` panics. `0x2E` is the byte of the dot. -/
def truncate_message (msg : List Nat) (max_len : Nat) : Option (List Nat) :=
  if msg.length ≤ max_len then
    some msg
  else if max_len < 3 then
    none
  else if is_char_boundary msg (max_len - 3) then
    some (msg.take (max_len - 3) ++ [0x2E, 0x2E, 0x2E])
  else
    none

/-- The UTF-8 encoding of U+FFFD REPLACEMENT CHARACTER, a 3-byte character. -/
def replacementCharUtf8 : List Nat := [0xEF, 0xBF, 0xBD]

/-- A UTF-8 continuation byte. -/
abbrev utf8Cont (b : Nat) : Prop := 0x80 ≤ b ∧ b ≤ 0xBF

/-- Admissible second byte of a 3-byte sequence headed by `b0`
(`0xE0..0xEF`), per Rust's `core::str` validation table. -/
abbrev utf8Snd3 (b0 b1 : Nat) : Prop :=
  (b0 = 0xE0 ∧ 0xA0 ≤ b1 ∧ b1 ≤ 0xBF) ∨
  (b0 = 0xED ∧ 0x80 ≤ b1 ∧ b1 ≤ 0x9F) ∨
  (b0 ≠ 0xE0 ∧ b0 ≠ 0xED ∧ 0x80 ≤ b1 ∧ b1 ≤ 0xBF)

/-- Admissible second byte of a 4-byte sequence headed by `b0`
(`0xF0..0xF4`), per Rust's `core::str` validation table. -/
abbrev utf8Snd4 (b0 b1 : Nat) : Prop :=
  (b0 = 0xF0 ∧ 0x90 ≤ b1 ∧ b1 ≤ 0xBF) ∨
  (b0 = 0xF4 ∧ 0x80 ≤ b1 ∧ b1 ≤ 0x8F) ∨
  ((b0 = 0xF1 ∨ b0 = 0xF2 ∨ b0 = 0xF3) ∧ 0x80 ≤ b1 ∧ b1 ≤ 0xBF)

/-- Rust `String::from_utf8_lossy` on a byte list: well-formed characters are
copied through unchanged, and each maximal invalid subpart (per the error
lengths of Rust's UTF-8 validation, including an incomplete sequence at the
end of the input) is replaced by one U+FFFD. -/
def from_utf8_lossy : List Nat → List Nat
  | [] => []
  | b0 :: rest =>
    if b0 < 0x80 then
      b0 :: from_utf8_lossy rest
    else if 0xC2 ≤ b0 ∧ b0 ≤ 0xDF then
      match rest with
      | [] => replacementCharUtf8
      | b1 :: rest2 =>
        if utf8Cont b1 then b0 :: b1 :: from_utf8_lossy rest2
        else replacementCharUtf8 ++ from_utf8_lossy (b1 :: rest2)
    else if 0xE0 ≤ b0 ∧ b0 ≤ 0xEF then
      match rest with
      | [] => replacementCharUtf8
      | b1 :: rest2 =>
        if utf8Snd3 b0 b1 then
          match rest2 with
          | [] => replacementCharUtf8
          | b2 :: rest3 =>
            if utf8Cont b2 then b0 :: b1 :: b2 :: from_utf8_lossy rest3
            else replacementCharUtf8 ++ from_utf8_lossy (b2 :: rest3)
        else replacementCharUtf8 ++ from_utf8_lossy (b1 :: rest2)
    else if 0xF0 ≤ b0 ∧ b0 ≤ 0xF4 then
      match rest with
      | [] => replacementCharUtf8
      | b1 :: rest2 =>
        if utf8Snd4 b0 b1 then
          match rest2 with
          | [] => replacementCharUtf8
          | b2 :: rest3 =>
            if utf8Cont b2 then
              match rest3 with
              | [] => replacementCharUtf8
              | b3 :: rest4 =>
                if utf8Cont b3 then b0 :: b1 :: b2 :: b3 :: from_utf8_lossy rest4
                else replacementCharUtf8 ++ from_utf8_lossy (b3 :: rest4)
            else replacementCharUtf8 ++ from_utf8_lossy (b2 :: rest3)
        else replacementCharUtf8 ++ from_utf8_lossy (b1 :: rest2)
    else
      replacementCharUtf8 ++ from_utf8_lossy rest

/-- Checker for well-formed UTF-8, following the same validation table. -/
def validUtf8 : List Nat → Bool
  | [] => true
  | b0 :: rest =>
    if b0 < 0x80 then
      validUtf8 rest
    else if 0xC2 ≤ b0 ∧ b0 ≤ 0xDF then
      match rest with
      | [] => false
      | b1 :: rest2 => if utf8Cont b1 then validUtf8 rest2 else false
    else if 0xE0 ≤ b0 ∧ b0 ≤ 0xEF then
      match rest with
      | [] => false
      | b1 :: rest2 =>
        if utf8Snd3 b0 b1 then
          match rest2 with
          | [] => false
          | b2 :: rest3 => if utf8Cont b2 then validUtf8 rest3 else false
        else false
    else if 0xF0 ≤ b0 ∧ b0 ≤ 0xF4 then
      match rest with
      | [] => false
      | b1 :: rest2 =>
        if utf8Snd4 b0 b1 then
          match rest2 with
          | [] => false
          | b2 :: rest3 =>
            if utf8Cont b2 then
              match rest3 with
              | [] => false
              | b3 :: rest4 => if utf8Cont b3 then validUtf8 rest4 else false
            else false
        else false
    else
      false

/-- `MessageRole` of the `openai_api_rs` chat-completion API (only the two
variants this program uses). -/
inductive MessageRole where
  | user
  | assistant
deriving DecidableEq

/-- `Content` of a chat message: this program only ever constructs
`Content::Text`; the remaining variants are collapsed into one. -/
inductive Content where
  | Text (t : List Nat)
  | OtherContent
deriving DecidableEq

/-- `ChatCompletionMessage` as the program uses it. -/
structure ChatCompletionMessage where
  role : MessageRole
  content : Content
  name : Option (List Nat)
  tool_calls : Option Unit
  tool_call_id : Option (List Nat)
deriving DecidableEq

/-- The message literal both appends in the loop construct:
role `assistant`, `Content::Text`, the remaining fields `None`. -/
def mkAssistantMsg (t : List Nat) : ChatCompletionMessage :=
  { role := MessageRole.assistant
    content := Content.Text t
    name := none
    tool_calls := none
    tool_call_id := none }

/-- The message of one returned chat choice (`choice.message`). -/
structure ChatChoiceMessage where
  content : Option (List Nat)
deriving DecidableEq

/-- One returned chat choice. -/
structure ChatChoice where
  message : ChatChoiceMessage
deriving DecidableEq

/-- `call_openai_api` from the source, past the request construction.  The
outcome of `client.chat_completion(req).await` is an input: `.error e`
models a transport/protocol failure propagated by the `?` operator, `.ok
choices` the received response's choice list.  On success the code takes
`result.choices.first()` and returns the text content of that choice,
`Err("Empty response from OpenAI API")` when the first choice has no
content, and `Err("No response from OpenAI API")` when the list is empty. -/
def call_openai_api (chatResult : Except String (List ChatChoice)) :
    Except String (List Nat) :=
  match chatResult with
  | Except.error e => Except.error e
  | Except.ok choices =>
    match choices.head? with
    | some choice =>
      match choice.message.content with
      | some text => Except.ok text
      | none => Except.error "Empty response from OpenAI API"
    | none => Except.error "No response from OpenAI API"

/-- The trimming loop of the source,
`while conversation_history.len() > max_h { conversation_history.pop_front(); }`. -/
def trimHistory (maxH : Nat) : List ChatCompletionMessage → List ChatCompletionMessage
  | [] => []
  | m :: rest =>
    if rest.length + 1 > maxH then trimHistory maxH rest else m :: rest

/-- One store append as the loop performs it: `push_back` followed by the
trimming loop, with an explicit capacity. -/
def conversationAppendWith (maxH : Nat) (h : List ChatCompletionMessage)
    (m : ChatCompletionMessage) : List ChatCompletionMessage :=
  trimHistory maxH (h ++ [m])

/-- Store append at the program's capacity `MAX_CONVERSATION_HISTORY`. -/
def conversationAppend (h : List ChatCompletionMessage)
    (m : ChatCompletionMessage) : List ChatCompletionMessage :=
  conversationAppendWith MAX_CONVERSATION_HISTORY h m

/-- Run a sequence of appends against an initially empty store. -/
def runStore (maxH : Nat) (ms : List ChatCompletionMessage) :
    List ChatCompletionMessage :=
  ms.foldl (conversationAppendWith maxH) []

/-- The `VecDeque` → `Vec` conversion at lines 133–156: a map that clones
each message (both match arms rebuild the same record). -/
def snapshotMessages (h : List ChatCompletionMessage) : List ChatCompletionMessage :=
  h.map fun msg =>
    match msg.content with
    | Content.Text text =>
      { role := msg.role
        content := Content.Text text
        name := msg.name
        tool_calls := msg.tool_calls
        tool_call_id := msg.tool_call_id }
    | _ =>
      { role := msg.role
        content := msg.content
        name := msg.name
        tool_calls := msg.tool_calls
        tool_call_id := msg.tool_call_id }

/-- Source constant `subscribe_topic`. -/
def subscribe_topic : String := "/esp_gpt_out"

/-- Source constant `publish_topic`. -/
def publish_topic : String := "/client_gpt"

/-- One result of `eventloop.poll()`, as the loop's `match` distinguishes
them: an incoming publish, an incoming connection acknowledgement, any other
`Ok` event, or a transport error. -/
inductive MqttEvent where
  | publish (topic : String) (payload : List Nat)
  | connAck
  | otherOk
  | connError
deriving DecidableEq

/-- Observable outcome of one loop iteration: the conversation history
afterwards and the list of publish calls attempted (topic, payload bytes). -/
structure IterResult where
  history : List ChatCompletionMessage
  publishes : List (String × List Nat)
deriving DecidableEq

/-- One iteration of the source's event loop (lines 104–210), as a function
of the current history, the polled event, and the outcome
`client.chat_completion` would deliver if called (`chatResult`, the oracle
for the single external call; the publish call's own `Ok`/`Err` outcome only
changes logging, never state, so it does not appear).  `none` models a panic
of the iteration (only `truncate_message` can panic).  The publish outcome
list records every `client.publish` call attempted. -/
def step (history : List ChatCompletionMessage) (event : MqttEvent)
    (chatResult : Except String (List ChatChoice)) : Option IterResult :=
  match event with
  | MqttEvent.publish topic payload =>
    let payloadStr := from_utf8_lossy payload
    if topic = subscribe_topic then
      match truncate_message payloadStr MAX_MESSAGE_LENGTH with
      | none => none
      | some esp32_response =>
        let h1 := conversationAppend history (mkAssistantMsg esp32_response)
        let _messages := snapshotMessages h1
        match call_openai_api chatResult with
        | Except.ok response =>
          match truncate_message response MAX_MESSAGE_LENGTH with
          | none => none
          | some truncated_response =>
            let h2 := conversationAppend h1 (mkAssistantMsg truncated_response)
            some { history := h2
                   publishes := [(publish_topic, truncated_response)] }
        | Except.error _ =>
          some { history := h1, publishes := [] }
    else
      some { history := history, publishes := [] }
  | MqttEvent.connAck => some { history := history, publishes := [] }
  | MqttEvent.otherOk => some { history := history, publishes := [] }
  | MqttEvent.connError => some { history := history, publishes := [] }

/-- The trimming loop drops exactly the oldest `length - maxH` messages. -/
theorem trimHistory_eq_drop (maxH : Nat) (s : List ChatCompletionMessage) :
    trimHistory maxH s = s.drop (s.length - maxH) := by
  induction s with
  | nil => simp [trimHistory]
  | cons a t ih =>
    simp only [trimHistory]
    by_cases h : t.length + 1 > maxH
    · rw [if_pos h, ih]
      have h2 : (a :: t).length - maxH = (t.length - maxH) + 1 := by
        simp only [List.length_cons]; omega
      rw [h2, List.drop_succ_cons]
    · rw [if_neg h]
      have h2 : (a :: t).length - maxH = 0 := by
        simp only [List.length_cons]; omega
      rw [h2, List.drop_zero]

/-- One append keeps the newest suffix of the extended sequence. -/
theorem conversationAppendWith_eq_drop (maxH : Nat)
    (h : List ChatCompletionMessage) (m : ChatCompletionMessage) :
    conversationAppendWith maxH h m = (h ++ [m]).drop ((h.length + 1) - maxH) := by
  unfold conversationAppendWith
  rw [trimHistory_eq_drop]
  simp

/-- Length after one append. -/
theorem length_conversationAppendWith (maxH : Nat)
    (h : List ChatCompletionMessage) (m : ChatCompletionMessage) :
    (conversationAppendWith maxH h m).length = min (h.length + 1) maxH := by
  rw [conversationAppendWith_eq_drop, List.length_drop]
  simp only [List.length_append, List.length_cons, List.length_nil]
  omega

/-- With a positive capacity the appended message is always retained at the
tail. -/
theorem getLast_conversationAppendWith (maxH : Nat)
    (h : List ChatCompletionMessage) (m : ChatCompletionMessage)
    (hm : 1 ≤ maxH) :
    (conversationAppendWith maxH h m).getLast? = some m := by
  rw [conversationAppendWith_eq_drop]
  have hk : (h.length + 1) - maxH ≤ h.length := by omega
  rw [List.drop_append_of_le_length hk]
  exact List.getLast?_concat _

/-- Everything in the store after an append was in it before, or is the new
message. -/
theorem mem_conversationAppendWith {x : ChatCompletionMessage} (maxH : Nat)
    (h : List ChatCompletionMessage) (m : ChatCompletionMessage)
    (hx : x ∈ conversationAppendWith maxH h m) : x ∈ h ∨ x = m := by
  rw [conversationAppendWith_eq_drop] at hx
  have hx2 := List.mem_of_mem_drop hx
  rcases List.mem_append.mp hx2 with h1 | h2
  · exact Or.inl h1
  · simp only [List.mem_singleton] at h2
    exact Or.inr h2

/-- Folding appends over an initially empty store retains exactly the newest
`min (count, maxH)` messages, in order. -/
theorem runStore_eq_drop (maxH : Nat) (ms : List ChatCompletionMessage) :
    runStore maxH ms = ms.drop (ms.length - maxH) := by
  induction ms using List.reverseRecOn with
  | nil => simp [runStore]
  | append_singleton ms m ih =>
    unfold runStore at ih ⊢
    rw [List.foldl_append, List.foldl_cons, List.foldl_nil, ih,
      conversationAppendWith_eq_drop, List.length_drop]
    have h1 : ms.length - maxH ≤ ms.length := by omega
    rw [← List.drop_append_of_le_length h1, List.drop_drop]
    congr 1
    simp only [List.length_append, List.length_cons, List.length_nil]
    omega

/-- C1: after every append the store holds at most `maxH` messages, and the
retained messages are exactly the most recent `min (count, maxH)` appended
ones in their original order (the newest suffix, so insertion is at the tail
and eviction from the head); with capacity 3, appending M1..M5 leaves
exactly [M3, M4, M5]. -/
theorem c1_store_bounded_fifo (maxH : Nat) (ms : List ChatCompletionMessage) :
    runStore maxH ms = ms.drop (ms.length - maxH)
    ∧ (runStore maxH ms).length = min ms.length maxH
    ∧ (runStore maxH ms).length ≤ maxH
    ∧ runStore 3 [mkAssistantMsg [49], mkAssistantMsg [50], mkAssistantMsg [51],
        mkAssistantMsg [52], mkAssistantMsg [53]]
      = [mkAssistantMsg [51], mkAssistantMsg [52], mkAssistantMsg [53]] := by
  have hlen : (runStore maxH ms).length = min ms.length maxH := by
    rw [runStore_eq_drop, List.length_drop]
    omega
  exact ⟨runStore_eq_drop maxH ms, hlen, by omega, by decide⟩

/-- C2 counterexample: with `max_len = 2` and the 3-byte input "abc" the code
returns no string at all — the usize subtraction `max_len - 3` makes the
slice `&msg[..max_len - 3]` panic — refuting "returns the first `maxLen - 3`
bytes … with total byte length exactly `maxLen`" and
"`len(truncate(s, n)) <= n` for all `s`, `n`" as stated for every input. -/
theorem c2_truncate_counterexample :
    truncate_message [97, 98, 99] 2 = none := by decide

/-- C2 (amended): if the byte length of `msg` is at most `max_len`, the text
is returned unchanged; if it exceeds `max_len` and additionally `max_len ≥ 3`
and `max_len - 3` is a character boundary of `msg` (on the remaining inputs
the code panics), the result is the first `max_len - 3` bytes followed by
"..." with total byte length exactly `max_len`; whenever a string is
returned at all its length is at most `max_len`. -/
theorem c2_truncate_contract (msg : List Nat) (max_len : Nat) :
    (msg.length ≤ max_len → truncate_message msg max_len = some msg)
    ∧ (max_len < msg.length → 3 ≤ max_len →
        is_char_boundary msg (max_len - 3) = true →
        truncate_message msg max_len
          = some (msg.take (max_len - 3) ++ [0x2E, 0x2E, 0x2E])
        ∧ (msg.take (max_len - 3) ++ [0x2E, 0x2E, 0x2E]).length = max_len)
    ∧ (∀ r, truncate_message msg max_len = some r → r.length ≤ max_len) := by
  refine ⟨fun h => by simp [truncate_message, h], fun h1 h2 h3 => ?_, fun r hr => ?_⟩
  · have hnle : ¬ msg.length ≤ max_len := by omega
    have hn3 : ¬ max_len < 3 := by omega
    refine ⟨by simp [truncate_message, hnle, hn3, h3], ?_⟩
    simp only [List.length_append, List.length_take, List.length_cons,
      List.length_nil]
    omega
  · by_cases hle : msg.length ≤ max_len
    · simp only [truncate_message, if_pos hle, Option.some.injEq] at hr
      subst hr
      exact hle
    · by_cases h3 : max_len < 3
      · simp [truncate_message, hle, h3] at hr
      · by_cases hb : is_char_boundary msg (max_len - 3) = true
        · simp only [truncate_message, if_neg hle, if_neg h3, if_pos hb,
            Option.some.injEq] at hr
          subst hr
          simp only [List.length_append, List.length_take, List.length_cons,
            List.length_nil]
          omega
        · simp [truncate_message, hle, h3, hb] at hr

/-- Scenario B: `truncate_message "hello world" 10 = "hello w..."`, a
10-byte string (witness instantiating the amended C2 contract). -/
theorem c2_truncate_contract_witness :
    truncate_message [104, 101, 108, 108, 111, 32, 119, 111, 114, 108, 100] 10
      = some [104, 101, 108, 108, 111, 32, 119, 0x2E, 0x2E, 0x2E]
    ∧ ([104, 101, 108, 108, 111, 32, 119, 0x2E, 0x2E, 0x2E] : List Nat).length
        = 10 := by
  have h := (c2_truncate_contract
    [104, 101, 108, 108, 111, 32, 119, 111, 114, 108, 100] 10).2.1
    (by decide) (by decide) (by decide)
  exact ⟨h.1.trans (by decide), by decide⟩

/-- C3: the sanitizer is in fact not total — the byte slice
`&msg[..max_len - 3]` panics when `max_len - 3` falls inside a multi-byte
character (here: four 3-byte "€" characters, 12 bytes, cut at byte 7) and
the usize subtraction `max_len - 3` panics when `max_len < 3` — so the code
contradicts the spec's "must not panic or split a multi-byte character"
contract. -/
theorem c3_truncate_panics :
    truncate_message
      [0xE2, 0x82, 0xAC, 0xE2, 0x82, 0xAC, 0xE2, 0x82, 0xAC, 0xE2, 0x82, 0xAC]
      10 = none
    ∧ truncate_message [97, 98, 99] 2 = none := by decide

/-- Whenever `truncate_message` returns a string at all, that string is no
longer than the bound. -/
theorem truncate_message_length_le (msg : List Nat) (max_len : Nat)
    (r : List Nat) (hr : truncate_message msg max_len = some r) :
    r.length ≤ max_len := by
  by_cases hle : msg.length ≤ max_len
  · simp only [truncate_message, if_pos hle, Option.some.injEq] at hr
    subst hr
    exact hle
  · by_cases h3 : max_len < 3
    · simp [truncate_message, hle, h3] at hr
    · by_cases hb : is_char_boundary msg (max_len - 3) = true
      · simp only [truncate_message, if_neg hle, if_neg h3, if_pos hb,
          Option.some.injEq] at hr
        subst hr
        simp only [List.length_append, List.length_take, List.length_cons,
          List.length_nil]
        omega
      · simp [truncate_message, hle, h3, hb] at hr

/-- Successful iteration on the inbound topic: both appends happen in order
and exactly one publish of the truncated reply is attempted. -/
theorem step_publish_inbound_ok (hist : List ChatCompletionMessage)
    (payload st resp tr : List Nat)
    (chatResult : Except String (List ChatChoice))
    (hs : truncate_message (from_utf8_lossy payload) MAX_MESSAGE_LENGTH = some st)
    (hres : call_openai_api chatResult = Except.ok resp)
    (hr : truncate_message resp MAX_MESSAGE_LENGTH = some tr) :
    step hist (MqttEvent.publish subscribe_topic payload) chatResult
      = some { history := conversationAppend
                 (conversationAppend hist (mkAssistantMsg st)) (mkAssistantMsg tr)
               publishes := [(publish_topic, tr)] } := by
  simp only [step, if_pos rfl, hs, hres, hr, ite_true]

/-- Failed completion on the inbound topic: only the inbound append happens
and nothing is published. -/
theorem step_publish_inbound_err (hist : List ChatCompletionMessage)
    (payload st : List Nat) (e : String)
    (chatResult : Except String (List ChatChoice))
    (hs : truncate_message (from_utf8_lossy payload) MAX_MESSAGE_LENGTH = some st)
    (hres : call_openai_api chatResult = Except.error e) :
    step hist (MqttEvent.publish subscribe_topic payload) chatResult
      = some { history := conversationAppend hist (mkAssistantMsg st)
               publishes := [] } := by
  simp only [step, if_pos rfl, hs, hres, ite_true]

/-- The history after a surviving iteration is the old one, the old one plus
one assistant append, or the old one plus two assistant appends. -/
theorem step_history_shape (hist : List ChatCompletionMessage)
    (event : MqttEvent) (chatResult : Except String (List ChatChoice))
    (out : IterResult) (h : step hist event chatResult = some out) :
    out.history = hist
    ∨ (∃ st, out.history = conversationAppend hist (mkAssistantMsg st))
    ∨ (∃ st tr, out.history
        = conversationAppend (conversationAppend hist (mkAssistantMsg st))
            (mkAssistantMsg tr)) := by
  cases event with
  | publish topic payload =>
    simp only [step] at h
    by_cases ht : topic = subscribe_topic
    · rw [if_pos ht] at h
      cases hs : truncate_message (from_utf8_lossy payload) MAX_MESSAGE_LENGTH with
      | none =>
        simp only [hs] at h
        exact Option.noConfusion h
      | some st =>
        simp only [hs] at h
        cases hres : call_openai_api chatResult with
        | error e =>
          simp only [hres] at h
          obtain rfl := Option.some.inj h
          exact Or.inr (Or.inl ⟨st, rfl⟩)
        | ok resp =>
          simp only [hres] at h
          cases hr : truncate_message resp MAX_MESSAGE_LENGTH with
          | none =>
            simp only [hr] at h
            exact Option.noConfusion h
          | some tr =>
            simp only [hr] at h
            obtain rfl := Option.some.inj h
            exact Or.inr (Or.inr ⟨st, tr, rfl⟩)
    · rw [if_neg ht] at h
      obtain rfl := Option.some.inj h
      exact Or.inl rfl
  | connAck =>
    obtain rfl := Option.some.inj h
    exact Or.inl rfl
  | otherOk =>
    obtain rfl := Option.some.inj h
    exact Or.inl rfl
  | connError =>
    obtain rfl := Option.some.inj h
    exact Or.inl rfl

/-- C4: when the completion call fails, the iteration appends exactly the
one inbound turn (which is retained at the tail; the length grows by exactly
one whenever the store is below capacity), attempts zero publishes, does not
terminate the loop, and the loop then processes a subsequent inbound event
normally. -/
theorem c4_failure_isolation (hist : List ChatCompletionMessage)
    (payload st : List Nat) (e : String)
    (chatResult : Except String (List ChatChoice))
    (hs : truncate_message (from_utf8_lossy payload) MAX_MESSAGE_LENGTH = some st)
    (he : call_openai_api chatResult = Except.error e) :
    step hist (MqttEvent.publish subscribe_topic payload) chatResult
      = some { history := conversationAppend hist (mkAssistantMsg st)
               publishes := [] }
    ∧ (conversationAppend hist (mkAssistantMsg st)).getLast?
        = some (mkAssistantMsg st)
    ∧ (hist.length < MAX_CONVERSATION_HISTORY →
        (conversationAppend hist (mkAssistantMsg st)).length = hist.length + 1)
    ∧ (∀ payload2 st2 resp2 tr2 chatResult2,
        truncate_message (from_utf8_lossy payload2) MAX_MESSAGE_LENGTH = some st2 →
        call_openai_api chatResult2 = Except.ok resp2 →
        truncate_message resp2 MAX_MESSAGE_LENGTH = some tr2 →
        step (conversationAppend hist (mkAssistantMsg st))
          (MqttEvent.publish subscribe_topic payload2) chatResult2
          = some { history := conversationAppend (conversationAppend
                     (conversationAppend hist (mkAssistantMsg st))
                     (mkAssistantMsg st2)) (mkAssistantMsg tr2)
                   publishes := [(publish_topic, tr2)] }) := by
  refine ⟨step_publish_inbound_err hist payload st e chatResult hs he, ?_, ?_, ?_⟩
  · exact getLast_conversationAppendWith MAX_CONVERSATION_HISTORY hist
      (mkAssistantMsg st) (by norm_num [MAX_CONVERSATION_HISTORY])
  · intro hlt
    have := length_conversationAppendWith MAX_CONVERSATION_HISTORY hist
      (mkAssistantMsg st)
    simp only [conversationAppend]
    omega
  · intro payload2 st2 resp2 tr2 chatResult2 hs2 hres2 hr2
    exact step_publish_inbound_ok _ payload2 st2 resp2 tr2 chatResult2 hs2 hres2 hr2

/-- C4 witness: a concrete failed turn from the empty store. -/
theorem c4_failure_isolation_witness :
    step [] (MqttEvent.publish subscribe_topic [104, 105])
        (Except.error "connection reset")
      = some { history := [mkAssistantMsg [104, 105]], publishes := [] } :=
  ((c4_failure_isolation [] [104, 105] [104, 105] "connection reset"
      (Except.error "connection reset") (by decide) rfl).1).trans
    (by decide)

/-- C5: when the inbound event is on the inbound topic and the completion
call succeeds with text "ok", the iteration appends first the sanitized
inbound turn and then the sanitized reply (the length grows by exactly two
whenever that stays within capacity) and attempts exactly one publish, on
the outbound topic, with payload "ok". -/
theorem c5_success_turn (hist : List ChatCompletionMessage)
    (payload st : List Nat)
    (hs : truncate_message (from_utf8_lossy payload) MAX_MESSAGE_LENGTH = some st) :
    step hist (MqttEvent.publish subscribe_topic payload)
        (Except.ok [{ message := { content := some [111, 107] } }])
      = some { history := conversationAppend
                 (conversationAppend hist (mkAssistantMsg st))
                 (mkAssistantMsg [111, 107])
               publishes := [(publish_topic, [111, 107])] }
    ∧ (hist.length + 2 ≤ MAX_CONVERSATION_HISTORY →
        (conversationAppend (conversationAppend hist (mkAssistantMsg st))
          (mkAssistantMsg [111, 107])).length = hist.length + 2) := by
  constructor
  · exact step_publish_inbound_ok hist payload st [111, 107] [111, 107] _ hs
      rfl (by decide)
  · intro hle
    have h1 := length_conversationAppendWith MAX_CONVERSATION_HISTORY hist
      (mkAssistantMsg st)
    have h2 := length_conversationAppendWith MAX_CONVERSATION_HISTORY
      (conversationAppendWith MAX_CONVERSATION_HISTORY hist (mkAssistantMsg st))
      (mkAssistantMsg [111, 107])
    simp only [conversationAppend]
    omega

/-- C5 witness: Scenario C from the empty store with inbound payload "hi". -/
theorem c5_success_turn_witness :
    step [] (MqttEvent.publish subscribe_topic [104, 105])
        (Except.ok [{ message := { content := some [111, 107] } }])
      = some { history := [mkAssistantMsg [104, 105], mkAssistantMsg [111, 107]]
               publishes := [(publish_topic, [111, 107])] } :=
  ((c5_success_turn [] [104, 105] [104, 105] (by decide)).1).trans (by decide)

/-- C6: an inbound publish on any topic other than the inbound topic leaves
the store untouched and attempts no publish. -/
theorem c6_unrelated_topic_frame (hist : List ChatCompletionMessage)
    (topic : String) (payload : List Nat)
    (chatResult : Except String (List ChatChoice))
    (ht : topic ≠ subscribe_topic) :
    step hist (MqttEvent.publish topic payload) chatResult
      = some { history := hist, publishes := [] } := by
  simp only [step, if_neg ht]

/-- C6 witness: a publish on "/other" is ignored. -/
theorem c6_unrelated_topic_frame_witness :
    step [mkAssistantMsg [104, 105]] (MqttEvent.publish "/other" [97])
        (Except.error "unused")
      = some { history := [mkAssistantMsg [104, 105]], publishes := [] } :=
  c6_unrelated_topic_frame [mkAssistantMsg [104, 105]] "/other" [97]
    (Except.error "unused") (by decide)

/-- C7: given a response received without transport failure, the call
succeeds with exactly the first choice's text when the list is non-empty and
its head carries text; the "No response from OpenAI API" failure (the spec's
EmptyChoiceError) occurs if and only if the choice list is empty; and the
"Empty response from OpenAI API" failure (the spec's NoContentError) occurs
if and only if the list is non-empty but its first choice carries no text. -/
theorem c7_first_choice_extraction (choices : List ChatChoice) :
    (call_openai_api (Except.ok choices)
        = Except.error "No response from OpenAI API" ↔ choices = [])
    ∧ (call_openai_api (Except.ok choices)
        = Except.error "Empty response from OpenAI API"
      ↔ ∃ c cs, choices = c :: cs ∧ c.message.content = none)
    ∧ (∀ c cs text, choices = c :: cs → c.message.content = some text →
        call_openai_api (Except.ok choices) = Except.ok text) := by
  cases choices with
  | nil =>
    refine ⟨by simp [call_openai_api], ?_, ?_⟩
    · constructor
      · intro h
        simp only [call_openai_api, List.head?_nil, Except.error.injEq] at h
        exact absurd h (by decide)
      · rintro ⟨c, cs, h, -⟩
        cases h
    · intro c cs text h
      cases h
  | cons c cs =>
    cases hc : c.message.content with
    | none =>
      refine ⟨?_, ?_, ?_⟩
      · constructor
        · intro h
          simp only [call_openai_api, List.head?_cons, hc, Except.error.injEq] at h
          exact absurd h (by decide)
        · intro h
          cases h
      · constructor
        · intro _
          exact ⟨c, cs, rfl, hc⟩
        · intro _
          simp [call_openai_api, hc]
      · intro c2 cs2 text h1 h2
        injection h1 with ha hb
        subst ha
        rw [hc] at h2
        cases h2
    | some t =>
      refine ⟨?_, ?_, ?_⟩
      · constructor
        · intro h
          simp only [call_openai_api, List.head?_cons, hc] at h
          cases h
        · intro h
          cases h
      · constructor
        · intro h
          simp only [call_openai_api, List.head?_cons, hc] at h
          cases h
        · rintro ⟨c2, cs2, h1, h2⟩
          injection h1 with ha hb
          subst ha
          rw [hc] at h2
          cases h2
      · intro c2 cs2 text h1 h2
        injection h1 with ha hb
        subst ha
        rw [hc] at h2
        injection h2 with ht
        subst ht
        simp [call_openai_api, hc]

/-- C7 witness: the empty choice list produces the empty-choices failure. -/
theorem c7_first_choice_extraction_witness :
    call_openai_api (Except.ok []) = Except.error "No response from OpenAI API" :=
  (c7_first_choice_extraction []).1.mpr rfl

/-- C8: every message an iteration of the loop adds to the store — the
inbound turn of step 2 as well as the model reply — carries role
`assistant`: anything in the new history was already in the old history or
has role `assistant`. -/
theorem c8_appends_are_assistant (hist : List ChatCompletionMessage)
    (event : MqttEvent) (chatResult : Except String (List ChatChoice))
    (out : IterResult) (h : step hist event chatResult = some out)
    (m : ChatCompletionMessage) (hm : m ∈ out.history) :
    m ∈ hist ∨ m.role = MessageRole.assistant := by
  rcases step_history_shape hist event chatResult out h with h0 | ⟨st, h1⟩ | ⟨st, tr, h2⟩
  · rw [h0] at hm
    exact Or.inl hm
  · rw [h1] at hm
    rcases mem_conversationAppendWith MAX_CONVERSATION_HISTORY hist
      (mkAssistantMsg st) hm with hm1 | rfl
    · exact Or.inl hm1
    · exact Or.inr rfl
  · rw [h2] at hm
    rcases mem_conversationAppendWith MAX_CONVERSATION_HISTORY _
      (mkAssistantMsg tr) hm with hm1 | rfl
    · rcases mem_conversationAppendWith MAX_CONVERSATION_HISTORY hist
        (mkAssistantMsg st) hm1 with hm2 | rfl
      · exact Or.inl hm2
      · exact Or.inr rfl
    · exact Or.inr rfl

/-- C8 witness: the inbound turn stored by a concrete successful iteration
from the empty store is an assistant-role entry. -/
theorem c8_appends_are_assistant_witness :
    mkAssistantMsg [104, 105] ∈ ([] : List ChatCompletionMessage)
    ∨ (mkAssistantMsg [104, 105]).role = MessageRole.assistant :=
  c8_appends_are_assistant [] (MqttEvent.publish subscribe_topic [104, 105])
    (Except.ok [{ message := { content := some [111, 107] } }])
    { history := [mkAssistantMsg [104, 105], mkAssistantMsg [111, 107]]
      publishes := [(publish_topic, [111, 107])] }
    (by decide) (mkAssistantMsg [104, 105]) (by decide)

/-- C10: on a successful turn the payload published on the outbound topic is
byte-for-byte the text of the entry appended last to the store — both are
the truncated reply — and it is never longer than `MAX_MESSAGE_LENGTH`. -/
theorem c10_publish_matches_store (hist : List ChatCompletionMessage)
    (payload st resp tr : List Nat)
    (chatResult : Except String (List ChatChoice))
    (hs : truncate_message (from_utf8_lossy payload) MAX_MESSAGE_LENGTH = some st)
    (hres : call_openai_api chatResult = Except.ok resp)
    (hr : truncate_message resp MAX_MESSAGE_LENGTH = some tr) :
    ∃ h2, step hist (MqttEvent.publish subscribe_topic payload) chatResult
        = some { history := h2, publishes := [(publish_topic, tr)] }
      ∧ h2.getLast? = some (mkAssistantMsg tr)
      ∧ (mkAssistantMsg tr).content = Content.Text tr
      ∧ tr.length ≤ MAX_MESSAGE_LENGTH := by
  refine ⟨conversationAppend (conversationAppend hist (mkAssistantMsg st))
    (mkAssistantMsg tr),
    step_publish_inbound_ok hist payload st resp tr chatResult hs hres hr,
    ?_, rfl, truncate_message_length_le resp MAX_MESSAGE_LENGTH tr hr⟩
  exact getLast_conversationAppendWith MAX_CONVERSATION_HISTORY _
    (mkAssistantMsg tr) (by norm_num [MAX_CONVERSATION_HISTORY])

/-- C10 witness: concrete successful turn, reply "ok" published and stored. -/
theorem c10_publish_matches_store_witness :
    ∃ h2, step [] (MqttEvent.publish subscribe_topic [104, 105])
        (Except.ok [{ message := { content := some [111, 107] } }])
        = some { history := h2, publishes := [(publish_topic, [111, 107])] }
      ∧ h2.getLast? = some (mkAssistantMsg [111, 107])
      ∧ (mkAssistantMsg [111, 107]).content = Content.Text [111, 107]
      ∧ ([111, 107] : List Nat).length ≤ MAX_MESSAGE_LENGTH :=
  c10_publish_matches_store [] [104, 105] [104, 105] [111, 107] [111, 107]
    (Except.ok [{ message := { content := some [111, 107] } }])
    (by decide) rfl (by decide)

/-- One-step equation for `from_utf8_lossy` on the empty list. -/
theorem lossy_eq_nil : from_utf8_lossy [] = [] := by
  rw [from_utf8_lossy.eq_def]

/-- One-step equation for `validUtf8` on the empty list. -/
theorem valid_eq_nil : validUtf8 [] = true := by
  rw [validUtf8.eq_def]

/-- One-step equation for `from_utf8_lossy` (ascii case). -/
theorem lossy_eq_ascii (b0 : Nat) (rest : List Nat)
    (ha : b0 < 0x80) :
    from_utf8_lossy (b0 :: rest) = b0 :: from_utf8_lossy rest := by
  rw [from_utf8_lossy.eq_def]
  simp only []
  rw [if_pos ha]

/-- One-step equation for `validUtf8` (ascii case). -/
theorem valid_eq_ascii (b0 : Nat) (rest : List Nat)
    (ha : b0 < 0x80) :
    validUtf8 (b0 :: rest) = validUtf8 rest := by
  rw [validUtf8.eq_def]
  simp only []
  rw [if_pos ha]

/-- One-step equation for `from_utf8_lossy` (two_end case). -/
theorem lossy_eq_two_end (b0 : Nat)
    (hna : ¬ b0 < 0x80)
    (hr2 : 0xC2 ≤ b0 ∧ b0 ≤ 0xDF) :
    from_utf8_lossy ([b0]) = replacementCharUtf8 := by
  rw [from_utf8_lossy.eq_def]
  simp only []
  rw [if_neg hna, if_pos hr2]

/-- One-step equation for `validUtf8` (two_end case). -/
theorem valid_eq_two_end (b0 : Nat)
    (hna : ¬ b0 < 0x80)
    (hr2 : 0xC2 ≤ b0 ∧ b0 ≤ 0xDF) :
    validUtf8 ([b0]) = false := by
  rw [validUtf8.eq_def]
  simp only []
  rw [if_neg hna, if_pos hr2]

/-- One-step equation for `from_utf8_lossy` (two case). -/
theorem lossy_eq_two (b0 b1 : Nat) (rest2 : List Nat)
    (hna : ¬ b0 < 0x80)
    (hr2 : 0xC2 ≤ b0 ∧ b0 ≤ 0xDF)
    (hc : utf8Cont b1) :
    from_utf8_lossy (b0 :: b1 :: rest2) = b0 :: b1 :: from_utf8_lossy rest2 := by
  rw [from_utf8_lossy.eq_def]
  simp only []
  rw [if_neg hna, if_pos hr2, if_pos hc]

/-- One-step equation for `validUtf8` (two case). -/
theorem valid_eq_two (b0 b1 : Nat) (rest2 : List Nat)
    (hna : ¬ b0 < 0x80)
    (hr2 : 0xC2 ≤ b0 ∧ b0 ≤ 0xDF)
    (hc : utf8Cont b1) :
    validUtf8 (b0 :: b1 :: rest2) = validUtf8 rest2 := by
  rw [validUtf8.eq_def]
  simp only []
  rw [if_neg hna, if_pos hr2, if_pos hc]

/-- One-step equation for `from_utf8_lossy` (two_bad case). -/
theorem lossy_eq_two_bad (b0 b1 : Nat) (rest2 : List Nat)
    (hna : ¬ b0 < 0x80)
    (hr2 : 0xC2 ≤ b0 ∧ b0 ≤ 0xDF)
    (hnc : ¬ utf8Cont b1) :
    from_utf8_lossy (b0 :: b1 :: rest2) = replacementCharUtf8 ++ from_utf8_lossy (b1 :: rest2) := by
  rw [from_utf8_lossy.eq_def]
  simp only []
  rw [if_neg hna, if_pos hr2, if_neg hnc]

/-- One-step equation for `validUtf8` (two_bad case). -/
theorem valid_eq_two_bad (b0 b1 : Nat) (rest2 : List Nat)
    (hna : ¬ b0 < 0x80)
    (hr2 : 0xC2 ≤ b0 ∧ b0 ≤ 0xDF)
    (hnc : ¬ utf8Cont b1) :
    validUtf8 (b0 :: b1 :: rest2) = false := by
  rw [validUtf8.eq_def]
  simp only []
  rw [if_neg hna, if_pos hr2, if_neg hnc]

/-- One-step equation for `from_utf8_lossy` (three_end1 case). -/
theorem lossy_eq_three_end1 (b0 : Nat)
    (hna : ¬ b0 < 0x80)
    (hnr2 : ¬ (0xC2 ≤ b0 ∧ b0 ≤ 0xDF))
    (hr3 : 0xE0 ≤ b0 ∧ b0 ≤ 0xEF) :
    from_utf8_lossy ([b0]) = replacementCharUtf8 := by
  rw [from_utf8_lossy.eq_def]
  simp only []
  rw [if_neg hna, if_neg hnr2, if_pos hr3]

/-- One-step equation for `validUtf8` (three_end1 case). -/
theorem valid_eq_three_end1 (b0 : Nat)
    (hna : ¬ b0 < 0x80)
    (hnr2 : ¬ (0xC2 ≤ b0 ∧ b0 ≤ 0xDF))
    (hr3 : 0xE0 ≤ b0 ∧ b0 ≤ 0xEF) :
    validUtf8 ([b0]) = false := by
  rw [validUtf8.eq_def]
  simp only []
  rw [if_neg hna, if_neg hnr2, if_pos hr3]

/-- One-step equation for `from_utf8_lossy` (three_end2 case). -/
theorem lossy_eq_three_end2 (b0 b1 : Nat)
    (hna : ¬ b0 < 0x80)
    (hnr2 : ¬ (0xC2 ≤ b0 ∧ b0 ≤ 0xDF))
    (hr3 : 0xE0 ≤ b0 ∧ b0 ≤ 0xEF)
    (hs3 : utf8Snd3 b0 b1) :
    from_utf8_lossy ([b0, b1]) = replacementCharUtf8 := by
  rw [from_utf8_lossy.eq_def]
  simp only []
  rw [if_neg hna, if_neg hnr2, if_pos hr3, if_pos hs3]

/-- One-step equation for `validUtf8` (three_end2 case). -/
theorem valid_eq_three_end2 (b0 b1 : Nat)
    (hna : ¬ b0 < 0x80)
    (hnr2 : ¬ (0xC2 ≤ b0 ∧ b0 ≤ 0xDF))
    (hr3 : 0xE0 ≤ b0 ∧ b0 ≤ 0xEF)
    (hs3 : utf8Snd3 b0 b1) :
    validUtf8 ([b0, b1]) = false := by
  rw [validUtf8.eq_def]
  simp only []
  rw [if_neg hna, if_neg hnr2, if_pos hr3, if_pos hs3]

/-- One-step equation for `from_utf8_lossy` (three case). -/
theorem lossy_eq_three (b0 b1 b2 : Nat) (rest3 : List Nat)
    (hna : ¬ b0 < 0x80)
    (hnr2 : ¬ (0xC2 ≤ b0 ∧ b0 ≤ 0xDF))
    (hr3 : 0xE0 ≤ b0 ∧ b0 ≤ 0xEF)
    (hs3 : utf8Snd3 b0 b1)
    (hc : utf8Cont b2) :
    from_utf8_lossy (b0 :: b1 :: b2 :: rest3) = b0 :: b1 :: b2 :: from_utf8_lossy rest3 := by
  rw [from_utf8_lossy.eq_def]
  simp only []
  rw [if_neg hna, if_neg hnr2, if_pos hr3, if_pos hs3, if_pos hc]

/-- One-step equation for `validUtf8` (three case). -/
theorem valid_eq_three (b0 b1 b2 : Nat) (rest3 : List Nat)
    (hna : ¬ b0 < 0x80)
    (hnr2 : ¬ (0xC2 ≤ b0 ∧ b0 ≤ 0xDF))
    (hr3 : 0xE0 ≤ b0 ∧ b0 ≤ 0xEF)
    (hs3 : utf8Snd3 b0 b1)
    (hc : utf8Cont b2) :
    validUtf8 (b0 :: b1 :: b2 :: rest3) = validUtf8 rest3 := by
  rw [validUtf8.eq_def]
  simp only []
  rw [if_neg hna, if_neg hnr2, if_pos hr3, if_pos hs3, if_pos hc]

/-- One-step equation for `from_utf8_lossy` (three_bad2 case). -/
theorem lossy_eq_three_bad2 (b0 b1 b2 : Nat) (rest3 : List Nat)
    (hna : ¬ b0 < 0x80)
    (hnr2 : ¬ (0xC2 ≤ b0 ∧ b0 ≤ 0xDF))
    (hr3 : 0xE0 ≤ b0 ∧ b0 ≤ 0xEF)
    (hs3 : utf8Snd3 b0 b1)
    (hnc : ¬ utf8Cont b2) :
    from_utf8_lossy (b0 :: b1 :: b2 :: rest3) = replacementCharUtf8 ++ from_utf8_lossy (b2 :: rest3) := by
  rw [from_utf8_lossy.eq_def]
  simp only []
  rw [if_neg hna, if_neg hnr2, if_pos hr3, if_pos hs3, if_neg hnc]

/-- One-step equation for `validUtf8` (three_bad2 case). -/
theorem valid_eq_three_bad2 (b0 b1 b2 : Nat) (rest3 : List Nat)
    (hna : ¬ b0 < 0x80)
    (hnr2 : ¬ (0xC2 ≤ b0 ∧ b0 ≤ 0xDF))
    (hr3 : 0xE0 ≤ b0 ∧ b0 ≤ 0xEF)
    (hs3 : utf8Snd3 b0 b1)
    (hnc : ¬ utf8Cont b2) :
    validUtf8 (b0 :: b1 :: b2 :: rest3) = false := by
  rw [validUtf8.eq_def]
  simp only []
  rw [if_neg hna, if_neg hnr2, if_pos hr3, if_pos hs3, if_neg hnc]

/-- One-step equation for `from_utf8_lossy` (three_badsnd case). -/
theorem lossy_eq_three_badsnd (b0 b1 : Nat) (rest2 : List Nat)
    (hna : ¬ b0 < 0x80)
    (hnr2 : ¬ (0xC2 ≤ b0 ∧ b0 ≤ 0xDF))
    (hr3 : 0xE0 ≤ b0 ∧ b0 ≤ 0xEF)
    (hns3 : ¬ utf8Snd3 b0 b1) :
    from_utf8_lossy (b0 :: b1 :: rest2) = replacementCharUtf8 ++ from_utf8_lossy (b1 :: rest2) := by
  rw [from_utf8_lossy.eq_def]
  simp only []
  rw [if_neg hna, if_neg hnr2, if_pos hr3, if_neg hns3]

/-- One-step equation for `validUtf8` (three_badsnd case). -/
theorem valid_eq_three_badsnd (b0 b1 : Nat) (rest2 : List Nat)
    (hna : ¬ b0 < 0x80)
    (hnr2 : ¬ (0xC2 ≤ b0 ∧ b0 ≤ 0xDF))
    (hr3 : 0xE0 ≤ b0 ∧ b0 ≤ 0xEF)
    (hns3 : ¬ utf8Snd3 b0 b1) :
    validUtf8 (b0 :: b1 :: rest2) = false := by
  rw [validUtf8.eq_def]
  simp only []
  rw [if_neg hna, if_neg hnr2, if_pos hr3, if_neg hns3]

/-- One-step equation for `from_utf8_lossy` (four_end1 case). -/
theorem lossy_eq_four_end1 (b0 : Nat)
    (hna : ¬ b0 < 0x80)
    (hnr2 : ¬ (0xC2 ≤ b0 ∧ b0 ≤ 0xDF))
    (hnr3 : ¬ (0xE0 ≤ b0 ∧ b0 ≤ 0xEF))
    (hr4 : 0xF0 ≤ b0 ∧ b0 ≤ 0xF4) :
    from_utf8_lossy ([b0]) = replacementCharUtf8 := by
  rw [from_utf8_lossy.eq_def]
  simp only []
  rw [if_neg hna, if_neg hnr2, if_neg hnr3, if_pos hr4]

/-- One-step equation for `validUtf8` (four_end1 case). -/
theorem valid_eq_four_end1 (b0 : Nat)
    (hna : ¬ b0 < 0x80)
    (hnr2 : ¬ (0xC2 ≤ b0 ∧ b0 ≤ 0xDF))
    (hnr3 : ¬ (0xE0 ≤ b0 ∧ b0 ≤ 0xEF))
    (hr4 : 0xF0 ≤ b0 ∧ b0 ≤ 0xF4) :
    validUtf8 ([b0]) = false := by
  rw [validUtf8.eq_def]
  simp only []
  rw [if_neg hna, if_neg hnr2, if_neg hnr3, if_pos hr4]

/-- One-step equation for `from_utf8_lossy` (four_end2 case). -/
theorem lossy_eq_four_end2 (b0 b1 : Nat)
    (hna : ¬ b0 < 0x80)
    (hnr2 : ¬ (0xC2 ≤ b0 ∧ b0 ≤ 0xDF))
    (hnr3 : ¬ (0xE0 ≤ b0 ∧ b0 ≤ 0xEF))
    (hr4 : 0xF0 ≤ b0 ∧ b0 ≤ 0xF4)
    (hs4 : utf8Snd4 b0 b1) :
    from_utf8_lossy ([b0, b1]) = replacementCharUtf8 := by
  rw [from_utf8_lossy.eq_def]
  simp only []
  rw [if_neg hna, if_neg hnr2, if_neg hnr3, if_pos hr4, if_pos hs4]

/-- One-step equation for `validUtf8` (four_end2 case). -/
theorem valid_eq_four_end2 (b0 b1 : Nat)
    (hna : ¬ b0 < 0x80)
    (hnr2 : ¬ (0xC2 ≤ b0 ∧ b0 ≤ 0xDF))
    (hnr3 : ¬ (0xE0 ≤ b0 ∧ b0 ≤ 0xEF))
    (hr4 : 0xF0 ≤ b0 ∧ b0 ≤ 0xF4)
    (hs4 : utf8Snd4 b0 b1) :
    validUtf8 ([b0, b1]) = false := by
  rw [validUtf8.eq_def]
  simp only []
  rw [if_neg hna, if_neg hnr2, if_neg hnr3, if_pos hr4, if_pos hs4]

/-- One-step equation for `from_utf8_lossy` (four_end3 case). -/
theorem lossy_eq_four_end3 (b0 b1 b2 : Nat)
    (hna : ¬ b0 < 0x80)
    (hnr2 : ¬ (0xC2 ≤ b0 ∧ b0 ≤ 0xDF))
    (hnr3 : ¬ (0xE0 ≤ b0 ∧ b0 ≤ 0xEF))
    (hr4 : 0xF0 ≤ b0 ∧ b0 ≤ 0xF4)
    (hs4 : utf8Snd4 b0 b1)
    (hc2 : utf8Cont b2) :
    from_utf8_lossy ([b0, b1, b2]) = replacementCharUtf8 := by
  rw [from_utf8_lossy.eq_def]
  simp only []
  rw [if_neg hna, if_neg hnr2, if_neg hnr3, if_pos hr4, if_pos hs4, if_pos hc2]

/-- One-step equation for `validUtf8` (four_end3 case). -/
theorem valid_eq_four_end3 (b0 b1 b2 : Nat)
    (hna : ¬ b0 < 0x80)
    (hnr2 : ¬ (0xC2 ≤ b0 ∧ b0 ≤ 0xDF))
    (hnr3 : ¬ (0xE0 ≤ b0 ∧ b0 ≤ 0xEF))
    (hr4 : 0xF0 ≤ b0 ∧ b0 ≤ 0xF4)
    (hs4 : utf8Snd4 b0 b1)
    (hc2 : utf8Cont b2) :
    validUtf8 ([b0, b1, b2]) = false := by
  rw [validUtf8.eq_def]
  simp only []
  rw [if_neg hna, if_neg hnr2, if_neg hnr3, if_pos hr4, if_pos hs4, if_pos hc2]

/-- One-step equation for `from_utf8_lossy` (four case). -/
theorem lossy_eq_four (b0 b1 b2 b3 : Nat) (rest4 : List Nat)
    (hna : ¬ b0 < 0x80)
    (hnr2 : ¬ (0xC2 ≤ b0 ∧ b0 ≤ 0xDF))
    (hnr3 : ¬ (0xE0 ≤ b0 ∧ b0 ≤ 0xEF))
    (hr4 : 0xF0 ≤ b0 ∧ b0 ≤ 0xF4)
    (hs4 : utf8Snd4 b0 b1)
    (hc2 : utf8Cont b2)
    (hc3 : utf8Cont b3) :
    from_utf8_lossy (b0 :: b1 :: b2 :: b3 :: rest4) = b0 :: b1 :: b2 :: b3 :: from_utf8_lossy rest4 := by
  rw [from_utf8_lossy.eq_def]
  simp only []
  rw [if_neg hna, if_neg hnr2, if_neg hnr3, if_pos hr4, if_pos hs4, if_pos hc2, if_pos hc3]

/-- One-step equation for `validUtf8` (four case). -/
theorem valid_eq_four (b0 b1 b2 b3 : Nat) (rest4 : List Nat)
    (hna : ¬ b0 < 0x80)
    (hnr2 : ¬ (0xC2 ≤ b0 ∧ b0 ≤ 0xDF))
    (hnr3 : ¬ (0xE0 ≤ b0 ∧ b0 ≤ 0xEF))
    (hr4 : 0xF0 ≤ b0 ∧ b0 ≤ 0xF4)
    (hs4 : utf8Snd4 b0 b1)
    (hc2 : utf8Cont b2)
    (hc3 : utf8Cont b3) :
    validUtf8 (b0 :: b1 :: b2 :: b3 :: rest4) = validUtf8 rest4 := by
  rw [validUtf8.eq_def]
  simp only []
  rw [if_neg hna, if_neg hnr2, if_neg hnr3, if_pos hr4, if_pos hs4, if_pos hc2, if_pos hc3]

/-- One-step equation for `from_utf8_lossy` (four_bad3 case). -/
theorem lossy_eq_four_bad3 (b0 b1 b2 b3 : Nat) (rest4 : List Nat)
    (hna : ¬ b0 < 0x80)
    (hnr2 : ¬ (0xC2 ≤ b0 ∧ b0 ≤ 0xDF))
    (hnr3 : ¬ (0xE0 ≤ b0 ∧ b0 ≤ 0xEF))
    (hr4 : 0xF0 ≤ b0 ∧ b0 ≤ 0xF4)
    (hs4 : utf8Snd4 b0 b1)
    (hc2 : utf8Cont b2)
    (hnc3 : ¬ utf8Cont b3) :
    from_utf8_lossy (b0 :: b1 :: b2 :: b3 :: rest4) = replacementCharUtf8 ++ from_utf8_lossy (b3 :: rest4) := by
  rw [from_utf8_lossy.eq_def]
  simp only []
  rw [if_neg hna, if_neg hnr2, if_neg hnr3, if_pos hr4, if_pos hs4, if_pos hc2, if_neg hnc3]

/-- One-step equation for `validUtf8` (four_bad3 case). -/
theorem valid_eq_four_bad3 (b0 b1 b2 b3 : Nat) (rest4 : List Nat)
    (hna : ¬ b0 < 0x80)
    (hnr2 : ¬ (0xC2 ≤ b0 ∧ b0 ≤ 0xDF))
    (hnr3 : ¬ (0xE0 ≤ b0 ∧ b0 ≤ 0xEF))
    (hr4 : 0xF0 ≤ b0 ∧ b0 ≤ 0xF4)
    (hs4 : utf8Snd4 b0 b1)
    (hc2 : utf8Cont b2)
    (hnc3 : ¬ utf8Cont b3) :
    validUtf8 (b0 :: b1 :: b2 :: b3 :: rest4) = false := by
  rw [validUtf8.eq_def]
  simp only []
  rw [if_neg hna, if_neg hnr2, if_neg hnr3, if_pos hr4, if_pos hs4, if_pos hc2, if_neg hnc3]

/-- One-step equation for `from_utf8_lossy` (four_bad2 case). -/
theorem lossy_eq_four_bad2 (b0 b1 b2 : Nat) (rest3 : List Nat)
    (hna : ¬ b0 < 0x80)
    (hnr2 : ¬ (0xC2 ≤ b0 ∧ b0 ≤ 0xDF))
    (hnr3 : ¬ (0xE0 ≤ b0 ∧ b0 ≤ 0xEF))
    (hr4 : 0xF0 ≤ b0 ∧ b0 ≤ 0xF4)
    (hs4 : utf8Snd4 b0 b1)
    (hnc2 : ¬ utf8Cont b2) :
    from_utf8_lossy (b0 :: b1 :: b2 :: rest3) = replacementCharUtf8 ++ from_utf8_lossy (b2 :: rest3) := by
  rw [from_utf8_lossy.eq_def]
  simp only []
  rw [if_neg hna, if_neg hnr2, if_neg hnr3, if_pos hr4, if_pos hs4, if_neg hnc2]

/-- One-step equation for `validUtf8` (four_bad2 case). -/
theorem valid_eq_four_bad2 (b0 b1 b2 : Nat) (rest3 : List Nat)
    (hna : ¬ b0 < 0x80)
    (hnr2 : ¬ (0xC2 ≤ b0 ∧ b0 ≤ 0xDF))
    (hnr3 : ¬ (0xE0 ≤ b0 ∧ b0 ≤ 0xEF))
    (hr4 : 0xF0 ≤ b0 ∧ b0 ≤ 0xF4)
    (hs4 : utf8Snd4 b0 b1)
    (hnc2 : ¬ utf8Cont b2) :
    validUtf8 (b0 :: b1 :: b2 :: rest3) = false := by
  rw [validUtf8.eq_def]
  simp only []
  rw [if_neg hna, if_neg hnr2, if_neg hnr3, if_pos hr4, if_pos hs4, if_neg hnc2]

/-- One-step equation for `from_utf8_lossy` (four_badsnd case). -/
theorem lossy_eq_four_badsnd (b0 b1 : Nat) (rest2 : List Nat)
    (hna : ¬ b0 < 0x80)
    (hnr2 : ¬ (0xC2 ≤ b0 ∧ b0 ≤ 0xDF))
    (hnr3 : ¬ (0xE0 ≤ b0 ∧ b0 ≤ 0xEF))
    (hr4 : 0xF0 ≤ b0 ∧ b0 ≤ 0xF4)
    (hns4 : ¬ utf8Snd4 b0 b1) :
    from_utf8_lossy (b0 :: b1 :: rest2) = replacementCharUtf8 ++ from_utf8_lossy (b1 :: rest2) := by
  rw [from_utf8_lossy.eq_def]
  simp only []
  rw [if_neg hna, if_neg hnr2, if_neg hnr3, if_pos hr4, if_neg hns4]

/-- One-step equation for `validUtf8` (four_badsnd case). -/
theorem valid_eq_four_badsnd (b0 b1 : Nat) (rest2 : List Nat)
    (hna : ¬ b0 < 0x80)
    (hnr2 : ¬ (0xC2 ≤ b0 ∧ b0 ≤ 0xDF))
    (hnr3 : ¬ (0xE0 ≤ b0 ∧ b0 ≤ 0xEF))
    (hr4 : 0xF0 ≤ b0 ∧ b0 ≤ 0xF4)
    (hns4 : ¬ utf8Snd4 b0 b1) :
    validUtf8 (b0 :: b1 :: rest2) = false := by
  rw [validUtf8.eq_def]
  simp only []
  rw [if_neg hna, if_neg hnr2, if_neg hnr3, if_pos hr4, if_neg hns4]

/-- One-step equation for `from_utf8_lossy` (invalid case). -/
theorem lossy_eq_invalid (b0 : Nat) (rest : List Nat)
    (hna : ¬ b0 < 0x80)
    (hnr2 : ¬ (0xC2 ≤ b0 ∧ b0 ≤ 0xDF))
    (hnr3 : ¬ (0xE0 ≤ b0 ∧ b0 ≤ 0xEF))
    (hnr4 : ¬ (0xF0 ≤ b0 ∧ b0 ≤ 0xF4)) :
    from_utf8_lossy (b0 :: rest) = replacementCharUtf8 ++ from_utf8_lossy rest := by
  rw [from_utf8_lossy.eq_def]
  simp only []
  rw [if_neg hna, if_neg hnr2, if_neg hnr3, if_neg hnr4]

/-- One-step equation for `validUtf8` (invalid case). -/
theorem valid_eq_invalid (b0 : Nat) (rest : List Nat)
    (hna : ¬ b0 < 0x80)
    (hnr2 : ¬ (0xC2 ≤ b0 ∧ b0 ≤ 0xDF))
    (hnr3 : ¬ (0xE0 ≤ b0 ∧ b0 ≤ 0xEF))
    (hnr4 : ¬ (0xF0 ≤ b0 ∧ b0 ≤ 0xF4)) :
    validUtf8 (b0 :: rest) = false := by
  rw [validUtf8.eq_def]
  simp only []
  rw [if_neg hna, if_neg hnr2, if_neg hnr3, if_neg hnr4]

/-- The replacement character is itself well-formed UTF-8 before any
well-formed continuation. -/
theorem valid_replacement_append (s : List Nat) :
    validUtf8 (replacementCharUtf8 ++ s) = validUtf8 s := by
  show validUtf8 (0xEF :: 0xBF :: 0xBD :: s) = validUtf8 s
  exact valid_eq_three 0xEF 0xBF 0xBD s (by decide) (by decide) (by decide)
    (by decide) (by decide)

/-- Lossy decoding is the identity on well-formed UTF-8 input. -/
theorem from_utf8_lossy_of_valid (bs : List Nat) (h : validUtf8 bs = true) :
    from_utf8_lossy bs = bs := by
  induction bs using from_utf8_lossy.induct with
  | case1 => exact lossy_eq_nil
  | case2 b0 rest ha ih =>
    rw [valid_eq_ascii b0 rest ha] at h
    rw [lossy_eq_ascii b0 rest ha, ih h]
  | case3 b0 hna hr2 =>
    rw [valid_eq_two_end b0 hna hr2] at h
    exact Bool.noConfusion h
  | case4 b0 hna hr2 b1 rest2 hc ih =>
    rw [valid_eq_two b0 b1 rest2 hna hr2 hc] at h
    rw [lossy_eq_two b0 b1 rest2 hna hr2 hc, ih h]
  | case5 b0 hna hr2 b1 rest2 hnc ih =>
    rw [valid_eq_two_bad b0 b1 rest2 hna hr2 hnc] at h
    exact Bool.noConfusion h
  | case6 b0 hna hnr2 hr3 =>
    rw [valid_eq_three_end1 b0 hna hnr2 hr3] at h
    exact Bool.noConfusion h
  | case7 b0 hna hnr2 hr3 b1 hs3 =>
    rw [valid_eq_three_end2 b0 b1 hna hnr2 hr3 hs3] at h
    exact Bool.noConfusion h
  | case8 b0 hna hnr2 hr3 b1 hs3 b2 rest3 hc ih =>
    rw [valid_eq_three b0 b1 b2 rest3 hna hnr2 hr3 hs3 hc] at h
    rw [lossy_eq_three b0 b1 b2 rest3 hna hnr2 hr3 hs3 hc, ih h]
  | case9 b0 hna hnr2 hr3 b1 hs3 b2 rest3 hnc ih =>
    rw [valid_eq_three_bad2 b0 b1 b2 rest3 hna hnr2 hr3 hs3 hnc] at h
    exact Bool.noConfusion h
  | case10 b0 hna hnr2 hr3 b1 rest2 hns3 ih =>
    rw [valid_eq_three_badsnd b0 b1 rest2 hna hnr2 hr3 hns3] at h
    exact Bool.noConfusion h
  | case11 b0 hna hnr2 hnr3 hr4 =>
    rw [valid_eq_four_end1 b0 hna hnr2 hnr3 hr4] at h
    exact Bool.noConfusion h
  | case12 b0 hna hnr2 hnr3 hr4 b1 hs4 =>
    rw [valid_eq_four_end2 b0 b1 hna hnr2 hnr3 hr4 hs4] at h
    exact Bool.noConfusion h
  | case13 b0 hna hnr2 hnr3 hr4 b1 hs4 b2 hc2 =>
    rw [valid_eq_four_end3 b0 b1 b2 hna hnr2 hnr3 hr4 hs4 hc2] at h
    exact Bool.noConfusion h
  | case14 b0 hna hnr2 hnr3 hr4 b1 hs4 b2 hc2 b3 rest4 hc3 ih =>
    rw [valid_eq_four b0 b1 b2 b3 rest4 hna hnr2 hnr3 hr4 hs4 hc2 hc3] at h
    rw [lossy_eq_four b0 b1 b2 b3 rest4 hna hnr2 hnr3 hr4 hs4 hc2 hc3, ih h]
  | case15 b0 hna hnr2 hnr3 hr4 b1 hs4 b2 hc2 b3 rest4 hnc3 ih =>
    rw [valid_eq_four_bad3 b0 b1 b2 b3 rest4 hna hnr2 hnr3 hr4 hs4 hc2 hnc3] at h
    exact Bool.noConfusion h
  | case16 b0 hna hnr2 hnr3 hr4 b1 hs4 b2 rest3 hnc2 ih =>
    rw [valid_eq_four_bad2 b0 b1 b2 rest3 hna hnr2 hnr3 hr4 hs4 hnc2] at h
    exact Bool.noConfusion h
  | case17 b0 hna hnr2 hnr3 hr4 b1 rest2 hns4 ih =>
    rw [valid_eq_four_badsnd b0 b1 rest2 hna hnr2 hnr3 hr4 hns4] at h
    exact Bool.noConfusion h
  | case18 b0 rest hna hnr2 hnr3 hnr4 ih =>
    rw [valid_eq_invalid b0 rest hna hnr2 hnr3 hnr4] at h
    exact Bool.noConfusion h

/-- Lossy decoding always yields well-formed UTF-8. -/
theorem validUtf8_from_utf8_lossy (bs : List Nat) :
    validUtf8 (from_utf8_lossy bs) = true := by
  induction bs using from_utf8_lossy.induct with
  | case1 => rw [lossy_eq_nil]; exact valid_eq_nil
  | case2 b0 rest ha ih =>
    rw [lossy_eq_ascii b0 rest ha, valid_eq_ascii b0 (from_utf8_lossy rest) ha]
    exact ih
  | case3 b0 hna hr2 =>
    rw [lossy_eq_two_end b0 hna hr2]
    decide
  | case4 b0 hna hr2 b1 rest2 hc ih =>
    rw [lossy_eq_two b0 b1 rest2 hna hr2 hc,
      valid_eq_two b0 b1 (from_utf8_lossy rest2) hna hr2 hc]
    exact ih
  | case5 b0 hna hr2 b1 rest2 hnc ih =>
    rw [lossy_eq_two_bad b0 b1 rest2 hna hr2 hnc, valid_replacement_append]
    exact ih
  | case6 b0 hna hnr2 hr3 =>
    rw [lossy_eq_three_end1 b0 hna hnr2 hr3]
    decide
  | case7 b0 hna hnr2 hr3 b1 hs3 =>
    rw [lossy_eq_three_end2 b0 b1 hna hnr2 hr3 hs3]
    decide
  | case8 b0 hna hnr2 hr3 b1 hs3 b2 rest3 hc ih =>
    rw [lossy_eq_three b0 b1 b2 rest3 hna hnr2 hr3 hs3 hc,
      valid_eq_three b0 b1 b2 (from_utf8_lossy rest3) hna hnr2 hr3 hs3 hc]
    exact ih
  | case9 b0 hna hnr2 hr3 b1 hs3 b2 rest3 hnc ih =>
    rw [lossy_eq_three_bad2 b0 b1 b2 rest3 hna hnr2 hr3 hs3 hnc,
      valid_replacement_append]
    exact ih
  | case10 b0 hna hnr2 hr3 b1 rest2 hns3 ih =>
    rw [lossy_eq_three_badsnd b0 b1 rest2 hna hnr2 hr3 hns3,
      valid_replacement_append]
    exact ih
  | case11 b0 hna hnr2 hnr3 hr4 =>
    rw [lossy_eq_four_end1 b0 hna hnr2 hnr3 hr4]
    decide
  | case12 b0 hna hnr2 hnr3 hr4 b1 hs4 =>
    rw [lossy_eq_four_end2 b0 b1 hna hnr2 hnr3 hr4 hs4]
    decide
  | case13 b0 hna hnr2 hnr3 hr4 b1 hs4 b2 hc2 =>
    rw [lossy_eq_four_end3 b0 b1 b2 hna hnr2 hnr3 hr4 hs4 hc2]
    decide
  | case14 b0 hna hnr2 hnr3 hr4 b1 hs4 b2 hc2 b3 rest4 hc3 ih =>
    rw [lossy_eq_four b0 b1 b2 b3 rest4 hna hnr2 hnr3 hr4 hs4 hc2 hc3,
      valid_eq_four b0 b1 b2 b3 (from_utf8_lossy rest4) hna hnr2 hnr3 hr4 hs4
        hc2 hc3]
    exact ih
  | case15 b0 hna hnr2 hnr3 hr4 b1 hs4 b2 hc2 b3 rest4 hnc3 ih =>
    rw [lossy_eq_four_bad3 b0 b1 b2 b3 rest4 hna hnr2 hnr3 hr4 hs4 hc2 hnc3,
      valid_replacement_append]
    exact ih
  | case16 b0 hna hnr2 hnr3 hr4 b1 hs4 b2 rest3 hnc2 ih =>
    rw [lossy_eq_four_bad2 b0 b1 b2 rest3 hna hnr2 hnr3 hr4 hs4 hnc2,
      valid_replacement_append]
    exact ih
  | case17 b0 hna hnr2 hnr3 hr4 b1 rest2 hns4 ih =>
    rw [lossy_eq_four_badsnd b0 b1 rest2 hna hnr2 hnr3 hr4 hns4,
      valid_replacement_append]
    exact ih
  | case18 b0 rest hna hnr2 hnr3 hnr4 ih =>
    rw [lossy_eq_invalid b0 rest hna hnr2 hnr3 hnr4, valid_replacement_append]
    exact ih

/-- On input that is not well-formed UTF-8, the lossy decoding contains the
replacement character somewhere. -/
theorem from_utf8_lossy_replaces (bs : List Nat) (h : validUtf8 bs = false) :
    ∃ u v, from_utf8_lossy bs = u ++ replacementCharUtf8 ++ v := by
  induction bs using from_utf8_lossy.induct with
  | case1 => rw [valid_eq_nil] at h; exact Bool.noConfusion h
  | case2 b0 rest ha ih =>
    rw [valid_eq_ascii b0 rest ha] at h
    obtain ⟨u, v, heq⟩ := ih h
    exact ⟨b0 :: u, v, by rw [lossy_eq_ascii b0 rest ha, heq]; rfl⟩
  | case3 b0 hna hr2 =>
    exact ⟨[], [], by rw [lossy_eq_two_end b0 hna hr2]; simp⟩
  | case4 b0 hna hr2 b1 rest2 hc ih =>
    rw [valid_eq_two b0 b1 rest2 hna hr2 hc] at h
    obtain ⟨u, v, heq⟩ := ih h
    exact ⟨b0 :: b1 :: u, v, by rw [lossy_eq_two b0 b1 rest2 hna hr2 hc, heq]; rfl⟩
  | case5 b0 hna hr2 b1 rest2 hnc ih =>
    exact ⟨[], from_utf8_lossy (b1 :: rest2),
      by rw [lossy_eq_two_bad b0 b1 rest2 hna hr2 hnc]; rfl⟩
  | case6 b0 hna hnr2 hr3 =>
    exact ⟨[], [], by rw [lossy_eq_three_end1 b0 hna hnr2 hr3]; simp⟩
  | case7 b0 hna hnr2 hr3 b1 hs3 =>
    exact ⟨[], [], by rw [lossy_eq_three_end2 b0 b1 hna hnr2 hr3 hs3]; simp⟩
  | case8 b0 hna hnr2 hr3 b1 hs3 b2 rest3 hc ih =>
    rw [valid_eq_three b0 b1 b2 rest3 hna hnr2 hr3 hs3 hc] at h
    obtain ⟨u, v, heq⟩ := ih h
    exact ⟨b0 :: b1 :: b2 :: u, v,
      by rw [lossy_eq_three b0 b1 b2 rest3 hna hnr2 hr3 hs3 hc, heq]; rfl⟩
  | case9 b0 hna hnr2 hr3 b1 hs3 b2 rest3 hnc ih =>
    exact ⟨[], from_utf8_lossy (b2 :: rest3),
      by rw [lossy_eq_three_bad2 b0 b1 b2 rest3 hna hnr2 hr3 hs3 hnc]; rfl⟩
  | case10 b0 hna hnr2 hr3 b1 rest2 hns3 ih =>
    exact ⟨[], from_utf8_lossy (b1 :: rest2),
      by rw [lossy_eq_three_badsnd b0 b1 rest2 hna hnr2 hr3 hns3]; rfl⟩
  | case11 b0 hna hnr2 hnr3 hr4 =>
    exact ⟨[], [], by rw [lossy_eq_four_end1 b0 hna hnr2 hnr3 hr4]; simp⟩
  | case12 b0 hna hnr2 hnr3 hr4 b1 hs4 =>
    exact ⟨[], [], by rw [lossy_eq_four_end2 b0 b1 hna hnr2 hnr3 hr4 hs4]; simp⟩
  | case13 b0 hna hnr2 hnr3 hr4 b1 hs4 b2 hc2 =>
    exact ⟨[], [],
      by rw [lossy_eq_four_end3 b0 b1 b2 hna hnr2 hnr3 hr4 hs4 hc2]; simp⟩
  | case14 b0 hna hnr2 hnr3 hr4 b1 hs4 b2 hc2 b3 rest4 hc3 ih =>
    rw [valid_eq_four b0 b1 b2 b3 rest4 hna hnr2 hnr3 hr4 hs4 hc2 hc3] at h
    obtain ⟨u, v, heq⟩ := ih h
    exact ⟨b0 :: b1 :: b2 :: b3 :: u, v,
      by rw [lossy_eq_four b0 b1 b2 b3 rest4 hna hnr2 hnr3 hr4 hs4 hc2 hc3,
        heq]; rfl⟩
  | case15 b0 hna hnr2 hnr3 hr4 b1 hs4 b2 hc2 b3 rest4 hnc3 ih =>
    exact ⟨[], from_utf8_lossy (b3 :: rest4),
      by rw [lossy_eq_four_bad3 b0 b1 b2 b3 rest4 hna hnr2 hnr3 hr4 hs4 hc2
        hnc3]; rfl⟩
  | case16 b0 hna hnr2 hnr3 hr4 b1 hs4 b2 rest3 hnc2 ih =>
    exact ⟨[], from_utf8_lossy (b2 :: rest3),
      by rw [lossy_eq_four_bad2 b0 b1 b2 rest3 hna hnr2 hnr3 hr4 hs4 hnc2]; rfl⟩
  | case17 b0 hna hnr2 hnr3 hr4 b1 rest2 hns4 ih =>
    exact ⟨[], from_utf8_lossy (b1 :: rest2),
      by rw [lossy_eq_four_badsnd b0 b1 rest2 hna hnr2 hnr3 hr4 hns4]; rfl⟩
  | case18 b0 rest hna hnr2 hnr3 hnr4 ih =>
    exact ⟨[], from_utf8_lossy rest,
      by rw [lossy_eq_invalid b0 rest hna hnr2 hnr3 hnr4]; rfl⟩

/-- C9: inbound payload bytes go through lossy UTF-8 decoding before any
further processing.  The decoding is total (defined on arbitrary byte
payloads) and always produces well-formed UTF-8; well-formed input passes
through unchanged; any ill-formed input has some maximal invalid sequence
replaced by the replacement character U+FFFD (a 3-byte character); and a
loop iteration depends on the raw payload only through its lossy decoding. -/
theorem c9_lossy_decode (payload : List Nat) :
    validUtf8 (from_utf8_lossy payload) = true
    ∧ (validUtf8 payload = true → from_utf8_lossy payload = payload)
    ∧ (validUtf8 payload = false →
        ∃ u v, from_utf8_lossy payload = u ++ replacementCharUtf8 ++ v)
    ∧ replacementCharUtf8.length = 3
    ∧ (∀ hist chatResult payload2,
        from_utf8_lossy payload2 = from_utf8_lossy payload →
        step hist (MqttEvent.publish subscribe_topic payload2) chatResult
          = step hist (MqttEvent.publish subscribe_topic payload) chatResult) := by
  refine ⟨validUtf8_from_utf8_lossy payload, from_utf8_lossy_of_valid payload,
    from_utf8_lossy_replaces payload, rfl, ?_⟩
  intro hist chatResult payload2 hcong
  simp only [step, hcong]

/-- C9 witness: the ill-formed payload [0xFF, 0x61] decodes to well-formed
UTF-8 containing the replacement character. -/
theorem c9_lossy_decode_witness :
    validUtf8 (from_utf8_lossy [0xFF, 0x61]) = true
    ∧ (∃ u v, from_utf8_lossy [0xFF, 0x61] = u ++ replacementCharUtf8 ++ v) :=
  ⟨(c9_lossy_decode [0xFF, 0x61]).1,
   (c9_lossy_decode [0xFF, 0x61]).2.2.1 (by decide)⟩
